import Mathlib

/-!
Verification of the Text-To-SQL Query Explorer pipeline.

The development shallowly embeds the pipeline's core operations:
the SQL safety gate (`Helper.check_for_unsafe_keywords`), the schema
serializer (`Helper.schema_to_text`), the FAISS-backed vector store
(`build_index` / `retrieve` / `save_index` / `load_index`), schema
introspection (`BaseDatabase.get_schema` composed with the
`exception_handler` decorator), SQL generation (`GroqLLM.generate`),
the per-question control flow of `App.process_query_ui`, and the
singleton provider registries (`__new__` caching plus guarded
`__init__`).  External services (the embedding model, the FAISS
library, the LLM provider, the filesystem and the SQLite driver) are
modelled by explicit parameters carrying their documented behaviour.
-/

set_option maxRecDepth 100000

namespace TextToSql

/-! ### Safety gate: `Helper.check_for_unsafe_keywords`

The source matches the regex
`\b(ALTER|CREATE|DELETE|DROP|INSERT|REPLACE|UPDATE|TRUNCATE|GRANT|REVOKE)\b`
against the query with `re.IGNORECASE`.  We embed the regex semantics
directly: a word character is alphanumeric or an underscore, `\b`
demands a non-word neighbour (or the string edge), and the alternation
matches one keyword case-insensitively. -/

def isWordChar (c : Char) : Bool :=
  c.isAlphanum || c == '_'

def charLowEq (a b : Char) : Bool :=
  a.toLower == b.toLower

/-- Case-insensitive match of the keyword `kw` against the front of the
remaining input (the regex engine testing one alternative at the
current position). -/
def ciMatch : List Char → List Char → Bool
  | [], _ => true
  | _ :: _, [] => false
  | k :: ks, c :: cs => charLowEq c k && ciMatch ks cs

/-- The `\b` on the left of the alternation: position `i` opens the
string or follows a non-word character. -/
def boundaryBefore (s : List Char) (i : Nat) : Bool :=
  i == 0 || !isWordChar (s.getD (i - 1) ' ')

/-- The `\b` on the right of the alternation: position `j` closes the
string or is followed by a non-word character. -/
def boundaryAfter (s : List Char) (j : Nat) : Bool :=
  decide (s.length ≤ j) || !isWordChar (s.getD j ' ')

def wordMatchAt (s : List Char) (i : Nat) (kw : List Char) : Bool :=
  ciMatch kw (s.drop i) && boundaryBefore s i && boundaryAfter s (i + kw.length)

def unsafeKeywords : List String :=
  ["ALTER", "CREATE", "DELETE", "DROP", "INSERT", "REPLACE", "UPDATE",
   "TRUNCATE", "GRANT", "REVOKE"]

/-- `Helper.check_for_unsafe_keywords`: `re.search` succeeds when some
position of the query starts a whole-word, case-insensitive occurrence
of a denylisted keyword. -/
def check_for_unsafe_keywords (query : String) : Bool :=
  let s := query.toList
  (List.range (s.length + 1)).any fun i =>
    unsafeKeywords.any fun kw => wordMatchAt s i kw.toList

/-- The spec's wording for the safety gate, over a character list: the
input splits as `pre ++ w ++ post` where `w` is a denylisted keyword up
to case and both neighbours (when they exist) are non-word
characters. -/
def ContainsUnsafeListWord (s : List Char) : Prop :=
  ∃ kw ∈ unsafeKeywords, ∃ pre w post : List Char,
    s = pre ++ w ++ post ∧
    w.map Char.toLower = kw.toList.map Char.toLower ∧
    (∀ c, pre.getLast? = some c → isWordChar c = false) ∧
    (∀ c, post.head? = some c → isWordChar c = false)

/-- The spec's wording for the safety gate: the query contains one of
the denylisted keywords as a whole word, matched case-insensitively. -/
def ContainsUnsafeWholeWord (query : String) : Prop :=
  ContainsUnsafeListWord query.toList

theorem ciMatch_iff (kw t : List Char) :
    ciMatch kw t = true ↔
      ∃ w post, t = w ++ post ∧ w.map Char.toLower = kw.map Char.toLower := by
  induction kw generalizing t with
  | nil =>
    constructor
    · intro _
      exact ⟨[], t, rfl, rfl⟩
    · intro _
      rfl
  | cons k ks ih =>
    cases t with
    | nil =>
      constructor
      · intro h
        simp [ciMatch] at h
      · rintro ⟨w, post, h, hmap⟩
        exfalso
        rcases List.append_eq_nil.mp h.symm with ⟨hw, -⟩
        subst hw
        simp at hmap
    | cons c cs =>
      simp only [ciMatch, Bool.and_eq_true, ih, charLowEq, beq_iff_eq]
      constructor
      · rintro ⟨hc, w, post, hsplit, hmap⟩
        exact ⟨c :: w, post, by simp [hsplit], by simp [hmap, hc]⟩
      · rintro ⟨w, post, hsplit, hmap⟩
        cases w with
        | nil =>
          simp at hmap
        | cons w0 ws =>
          simp only [List.cons_append, List.cons.injEq] at hsplit
          simp only [List.map_cons, List.cons.injEq] at hmap
          refine ⟨?_, ws, post, hsplit.2, hmap.2⟩
          rw [hsplit.1]
          exact hmap.1

theorem getD_append_last (pre rest : List Char) (c : Char)
    (hc : pre.getLast? = some c) :
    (pre ++ rest).getD (pre.length - 1) ' ' = c := by
  have hpos : 0 < pre.length := by
    cases pre with
    | nil => simp at hc
    | cons a as => simp
  have hlt : pre.length - 1 < pre.length := Nat.sub_lt hpos Nat.one_pos
  rw [List.getD_eq_getElem?_getD, List.getElem?_append_left hlt,
    ← List.getLast?_eq_getElem?, hc]
  rfl

theorem getD_append_head (front post : List Char) (c : Char)
    (hc : post.head? = some c) :
    (front ++ post).getD front.length ' ' = c := by
  rw [List.getD_eq_getElem?_getD, List.getElem?_append_right (Nat.le_refl _),
    Nat.sub_self, ← List.head?_eq_getElem?, hc]
  rfl

theorem boundaryBefore_elim (pre rest : List Char)
    (h : boundaryBefore (pre ++ rest) pre.length = true) :
    ∀ c, pre.getLast? = some c → isWordChar c = false := by
  intro c hc
  have hpos : 0 < pre.length := by
    cases pre with
    | nil => simp at hc
    | cons a as => simp
  have hne : pre.length ≠ 0 := Nat.pos_iff_ne_zero.mp hpos
  have h' : isWordChar ((pre ++ rest).getD (pre.length - 1) ' ') = false := by
    simpa [boundaryBefore, hne] using h
  rw [getD_append_last pre rest c hc] at h'
  exact h'

theorem boundaryBefore_intro (pre rest : List Char)
    (h : ∀ c, pre.getLast? = some c → isWordChar c = false) :
    boundaryBefore (pre ++ rest) pre.length = true := by
  cases hpre : pre.getLast? with
  | none =>
    have hnil : pre = [] := by
      cases pre with
      | nil => rfl
      | cons a as =>
        rw [List.getLast?_eq_getLast (a :: as) (by simp)] at hpre
        simp at hpre
    subst hnil
    simp [boundaryBefore]
  | some c =>
    have hc := h c hpre
    unfold boundaryBefore
    rw [getD_append_last pre rest c hpre, hc]
    simp

theorem boundaryAfter_elim (front post : List Char)
    (h : boundaryAfter (front ++ post) front.length = true) :
    ∀ c, post.head? = some c → isWordChar c = false := by
  intro c hc
  have hpost : post ≠ [] := by
    intro hnil
    subst hnil
    simp at hc
  have hlen : ¬ ((front ++ post).length ≤ front.length) := by
    rw [List.length_append]
    have := List.length_pos.mpr hpost
    omega
  unfold boundaryAfter at h
  rw [Bool.or_eq_true] at h
  rcases h with h1 | h2
  · exact absurd (of_decide_eq_true h1) hlen
  · rw [getD_append_head front post c hc] at h2
    simpa using h2

theorem boundaryAfter_intro (front post : List Char)
    (h : ∀ c, post.head? = some c → isWordChar c = false) :
    boundaryAfter (front ++ post) front.length = true := by
  cases hpost : post.head? with
  | none =>
    have hnil : post = [] := List.head?_eq_none_iff.mp hpost
    subst hnil
    simp [boundaryAfter]
  | some c =>
    unfold boundaryAfter
    rw [getD_append_head front post c hpost, h c hpost]
    simp

theorem check_list_iff (s : List Char) :
    ((List.range (s.length + 1)).any fun i =>
      unsafeKeywords.any fun kw => wordMatchAt s i kw.toList) = true ↔
    ContainsUnsafeListWord s := by
  simp only [List.any_eq_true, List.mem_range]
  constructor
  · rintro ⟨i, hi, kw, hkw, hmatch⟩
    have hile : i ≤ s.length := Nat.lt_succ_iff.mp hi
    unfold wordMatchAt at hmatch
    simp only [Bool.and_eq_true] at hmatch
    obtain ⟨⟨hci, hbefore⟩, hafter⟩ := hmatch
    obtain ⟨w, post, hsplit, hmap⟩ := (ciMatch_iff _ _).mp hci
    have hkwlen : w.length = kw.toList.length := by
      have := congrArg List.length hmap
      simpa using this
    have hprelen : (s.take i).length = i := by
      rw [List.length_take]
      omega
    have hs : s = s.take i ++ (w ++ post) := by
      conv_lhs => rw [← List.take_append_drop i s]
      rw [hsplit]
    have hpre := boundaryBefore_elim (s.take i) (w ++ post) (by
      rw [hprelen, ← hs]
      exact hbefore)
    have hpost := boundaryAfter_elim (s.take i ++ w) post (by
      have hlen2 : (s.take i ++ w).length = i + kw.toList.length := by
        rw [List.length_append, hprelen, hkwlen]
      have hassoc : s.take i ++ w ++ post = s := by
        rw [List.append_assoc, ← hs]
      rw [hlen2, hassoc]
      exact hafter)
    exact ⟨kw, hkw, s.take i, w, post,
      hs.trans (List.append_assoc _ _ _).symm, hmap, hpre, hpost⟩
  · rintro ⟨kw, hkw, pre, w, post, hsplit, hmap, hpre, hpost⟩
    have hkwlen : w.length = kw.toList.length := by
      have := congrArg List.length hmap
      simpa using this
    refine ⟨pre.length, ?_, kw, hkw, ?_⟩
    · have := congrArg List.length hsplit
      simp only [List.length_append] at this
      omega
    · unfold wordMatchAt
      simp only [Bool.and_eq_true]
      refine ⟨⟨?_, ?_⟩, ?_⟩
      · have hdrop : s.drop pre.length = w ++ post := by
          rw [hsplit, List.append_assoc]
          exact List.drop_left _ _
        rw [hdrop, ciMatch_iff]
        exact ⟨w, post, rfl, hmap⟩
      · have hs' : s = pre ++ (w ++ post) := by
          rw [hsplit, List.append_assoc]
        rw [hs']
        exact boundaryBefore_intro _ _ hpre
      · have hlen2 : pre.length + kw.toList.length = (pre ++ w).length := by
          rw [List.length_append, hkwlen]
        rw [hlen2, hsplit]
        exact boundaryAfter_intro _ _ hpost

theorem check_iff_contains (q : String) :
    check_for_unsafe_keywords q = true ↔ ContainsUnsafeWholeWord q :=
  check_list_iff q.toList

/-- C1: for every SQL string, `check_for_unsafe_keywords` returns true
iff the string contains one of the keywords ALTER, CREATE, DELETE,
DROP, INSERT, REPLACE, UPDATE, TRUNCATE, GRANT, REVOKE as a whole word,
matched case-insensitively; in particular it returns false on
`SELECT * FROM student WHERE updated_at > 5` and true on
`DROP TABLE student`. -/
theorem claim_C1_unsafe_keyword_gate :
    (∀ q : String, check_for_unsafe_keywords q = true ↔ ContainsUnsafeWholeWord q) ∧
    check_for_unsafe_keywords "SELECT * FROM student WHERE updated_at > 5" = false ∧
    check_for_unsafe_keywords "DROP TABLE student" = true :=
  ⟨check_iff_contains, by decide, by decide⟩

/-! ### Schema serializer: `Helper.schema_to_text`

A `SchemaDescriptor` is the Python dict produced by `get_schema`,
modelled as an association list in iteration (insertion) order.  The
serializer walks the tables, appending one bullet per column with the
`[PRIMARY KEY]`, `NOT NULL` and `DEFAULT` markers, then a
`Foreign Keys:` block when the table has foreign keys, and strips the
surrounding whitespace of each chunk (Python `str.strip`). -/

/-- Python `str.strip()`: drop leading and trailing whitespace.  (Lean's
own `String.trim` is defined by well-founded recursion on byte
positions and does not reduce inside the kernel, so the serializer uses
this structural equivalent.) -/
def pyStrip (s : String) : String :=
  ⟨((s.toList.dropWhile Char.isWhitespace).reverse.dropWhile
      Char.isWhitespace).reverse⟩

structure ColumnInfo where
  name : String
  type : String
  notnull : Bool
  default : Option String
  pk : Bool
deriving DecidableEq, Repr

structure ForeignKeyInfo where
  from_col : String
  to_table : String
  to_column : String
deriving DecidableEq, Repr

structure TableInfo where
  columns : List ColumnInfo
  foreign_keys : List ForeignKeyInfo
deriving DecidableEq, Repr

abbrev SchemaDescriptor : Type := List (String × TableInfo)

/-- One bullet of the serializer: `col_desc` after the three `if`
blocks (Python truthiness makes an empty default string behave like a
missing default). -/
def colDesc (col : ColumnInfo) : String :=
  let d := "- " ++ col.name ++ " (" ++ col.type ++ ")"
  let d := if col.pk then d ++ " [PRIMARY KEY]" else d
  let d := if col.notnull then d ++ " NOT NULL" else d
  match col.default with
  | some v => if v = "" then d else d ++ " DEFAULT " ++ v
  | none => d

def fkLine (fk : ForeignKeyInfo) : String :=
  "- " ++ fk.from_col ++ " → " ++ fk.to_table ++ "(" ++ fk.to_column ++ ")\n"

/-- The serializer's accumulation for one table, before `strip`. -/
def tableDescRaw (table : String) (info : TableInfo) : String :=
  let base := "Table: " ++ table ++ "\nColumns:\n"
  let withCols := info.columns.foldl (fun acc col => acc ++ colDesc col ++ "\n") base
  if info.foreign_keys.isEmpty then withCols
  else info.foreign_keys.foldl (fun acc fk => acc ++ fkLine fk)
    (withCols ++ "Foreign Keys:\n")

/-- `Helper.schema_to_text`: one stripped chunk per table, in the
descriptor's iteration order. -/
def schema_to_text (schema : SchemaDescriptor) : List String :=
  schema.map fun p => pyStrip (tableDescRaw p.1 p.2)

/-! The spec's description of a chunk, written as plain concatenation:
a `Table:` header, one bullet per column whose `[PRIMARY KEY]`,
`NOT NULL` and `DEFAULT` markers appear in that fixed order when
applicable, then a `Foreign Keys` block when foreign keys exist. -/

def colDescSpec (col : ColumnInfo) : String :=
  "- " ++ col.name ++ " (" ++ col.type ++ ")" ++
  (if col.pk then " [PRIMARY KEY]" else "") ++
  (if col.notnull then " NOT NULL" else "") ++
  (match col.default with
   | some v => if v = "" then "" else " DEFAULT " ++ v
   | none => "")

def tableChunkSpec (t : String) (info : TableInfo) : String :=
  pyStrip ("Table: " ++ t ++ "\nColumns:\n" ++
    String.join (info.columns.map fun c => colDescSpec c ++ "\n") ++
    (if info.foreign_keys = [] then ""
     else "Foreign Keys:\n" ++ String.join (info.foreign_keys.map fkLine)))

theorem foldl_append_join (l : List String) (acc : String) :
    l.foldl (fun r s => r ++ s) acc = acc ++ String.join l := by
  induction l generalizing acc with
  | nil => simp [String.join]
  | cons a l ih =>
    simp only [List.foldl_cons]
    rw [ih (acc ++ a)]
    have hj : String.join (a :: l) = a ++ String.join l := by
      show (a :: l).foldl (fun r s => r ++ s) "" = _
      simp only [List.foldl_cons, String.empty_append]
      exact ih a
    rw [hj, String.append_assoc]

theorem foldl_map_append {α : Type} (f : α → String) (xs : List α) (acc : String) :
    xs.foldl (fun a x => a ++ f x) acc = acc ++ String.join (xs.map f) := by
  induction xs generalizing acc with
  | nil => simp [String.join]
  | cons x xs ih =>
    simp only [List.foldl_cons, List.map_cons]
    rw [ih (acc ++ f x)]
    have hj : String.join (f x :: xs.map f) = f x ++ String.join (xs.map f) := by
      show (f x :: xs.map f).foldl (fun r s => r ++ s) "" = _
      simp only [List.foldl_cons, String.empty_append]
      exact foldl_append_join _ _
    rw [hj, String.append_assoc]

theorem colDesc_eq_spec (col : ColumnInfo) : colDesc col = colDescSpec col := by
  rcases col with ⟨n, ty, nn, d, pk⟩
  unfold colDesc colDescSpec
  cases pk <;> cases nn <;> cases d
  all_goals
    first
      | (simp; done)
      | (rename_i v
         by_cases hv : v = "" <;> simp [hv, ← String.append_assoc])

theorem tableDescRaw_eq (t : String) (info : TableInfo) :
    tableDescRaw t info =
      "Table: " ++ t ++ "\nColumns:\n" ++
        String.join (info.columns.map fun c => colDescSpec c ++ "\n") ++
        (if info.foreign_keys = [] then ""
         else "Foreign Keys:\n" ++ String.join (info.foreign_keys.map fkLine)) := by
  have hfun : (fun (acc : String) col => acc ++ colDesc col ++ "\n") =
      (fun (acc : String) col => acc ++ (colDescSpec col ++ "\n")) := by
    funext acc col
    rw [String.append_assoc, colDesc_eq_spec]
  have hcols : info.columns.foldl (fun acc col => acc ++ colDesc col ++ "\n")
      ("Table: " ++ t ++ "\nColumns:\n") =
      "Table: " ++ t ++ "\nColumns:\n" ++
        String.join (info.columns.map fun c => colDescSpec c ++ "\n") := by
    rw [hfun, foldl_map_append (fun col => colDescSpec col ++ "\n")]
  unfold tableDescRaw
  cases hfk : info.foreign_keys with
  | nil =>
    simp only [List.isEmpty_nil, if_true, String.append_empty]
    rw [hcols]
  | cons fk fks =>
    simp only [List.isEmpty_cons, Bool.false_eq_true, if_false,
      reduceCtorEq]
    rw [foldl_map_append fkLine, hcols]
    simp [String.append_assoc]

theorem schema_to_text_eq (D : SchemaDescriptor) :
    schema_to_text D = D.map fun p => tableChunkSpec p.1 p.2 := by
  unfold schema_to_text tableChunkSpec
  simp only [tableDescRaw_eq]

/-- C6: for every SchemaDescriptor `D`, `schema_to_text D` returns
exactly `D.length` chunks, one per table in iteration order, each the
stripped concatenation of a `Table:` header, one bullet per column
with the `[PRIMARY KEY]`, `NOT NULL` and `DEFAULT` markers in that
fixed order when applicable, and a `Foreign Keys` block when foreign
keys exist; the single-table descriptor of Scenario A yields a chunk
starting with `Table: student\nColumns:\n- id (INTEGER) [PRIMARY KEY]
NOT NULL`. -/
theorem claim_C6_schema_to_text :
    (∀ D : SchemaDescriptor,
      (schema_to_text D).length = D.length ∧
      schema_to_text D = D.map fun p => tableChunkSpec p.1 p.2) ∧
    List.IsPrefix
      "Table: student\nColumns:\n- id (INTEGER) [PRIMARY KEY] NOT NULL".toList
      ((schema_to_text
        [("student", ⟨[⟨"id", "INTEGER", true, none, true⟩], []⟩)]).headD
          "").toList :=
  ⟨fun D => ⟨by rw [schema_to_text_eq]; exact List.length_map _ _,
    schema_to_text_eq D⟩, by decide⟩

/-! ### The error taxonomy and the `exception_handler` decorator

`Core.Utils.exception` declares one `AppError` subclass per failure
kind; code can also raise builtin Python exceptions (`ValueError`,
`TypeError`, `IndexError`), which the wrapping `except Exception`
blocks convert to typed errors.  A Python call either returns a value
or raises, which we model with `Except PyErr`. -/

inductive PyErr where
  | databaseConnectionError (msg : String)
  | queryExecutionError (msg : String)
  | vectorstoreError (msg : String)
  | llmProviderError (msg : String)
  | fileIOError (msg : String)
  | valueError (msg : String)
  | typeError (msg : String)
  | indexError (msg : String)
deriving DecidableEq, Repr

def PyErr.message : PyErr → String
  | .databaseConnectionError m => m
  | .queryExecutionError m => m
  | .vectorstoreError m => m
  | .llmProviderError m => m
  | .fileIOError m => m
  | .valueError m => m
  | .typeError m => m
  | .indexError m => m

/-- The five `AppError` subclasses of `Core.Utils.exception`. -/
def PyErr.isAppError : PyErr → Bool
  | .databaseConnectionError _ => true
  | .queryExecutionError _ => true
  | .vectorstoreError _ => true
  | .llmProviderError _ => true
  | .fileIOError _ => true
  | _ => false

def isOk {α : Type} : Except PyErr α → Bool
  | .ok _ => true
  | .error _ => false

/-- The `exception_handler` decorator of `Core.Utils.error_handler`:
every exception (AppError or not) is caught, logged, rendered as a UI
message, and the wrapped call falls through to return `None`. -/
def exception_handler {α : Type} (r : Except PyErr α) : Option α :=
  match r with
  | .ok a => some a
  | .error _ => none

/-! ### Vector store: `FAISSVectorStore`

State is the FAISS index (`self.index`, `None` until built or loaded,
modelled by the list of stored vectors) and the parallel chunk texts
(`self.text_chunks`).  The embedding model is an external call passed
in as the result of `self.model.encode(...)`; vectors are integer
lists.  FAISS `search` returns, for each query, exactly `k` labels:
the indices of the `k` nearest stored vectors in ascending distance
order, padded with `-1` when fewer than `k` vectors are stored.  The
Python list indexing `self.text_chunks[i]` resolves negative indices
from the end of the list. -/

structure VectorStoreState where
  index : Option (List (List Int))
  text_chunks : List String
deriving DecidableEq, Repr

def emptyStore : VectorStoreState := ⟨none, []⟩

def vecCount (st : VectorStoreState) : Nat :=
  match st.index with
  | none => 0
  | some vecs => vecs.length

/-- Squared Euclidean (L2) distance, FAISS's `IndexFlatL2` metric. -/
def l2dist (a b : List Int) : Int :=
  ((a.zip b).map fun p => (p.1 - p.2) * (p.1 - p.2)).sum

def insertSorted {α : Type} (le : α → α → Bool) (x : α) : List α → List α
  | [] => [x]
  | y :: ys => if le x y then x :: y :: ys else y :: insertSorted le x ys

def sortedBy {α : Type} (le : α → α → Bool) : List α → List α
  | [] => []
  | x :: xs => insertSorted le x (sortedBy le xs)

/-- FAISS `index.search(query, k)` label output for one query: the
indices of all stored vectors in ascending distance order, truncated
to `k`, padded with `-1` labels when `k` exceeds the number of stored
vectors. -/
def faissSearch (vecs : List (List Int)) (q : List Int) (k : Nat) : List Int :=
  let idxs := sortedBy
    (fun i j => decide (l2dist (vecs.getD i []) q ≤ l2dist (vecs.getD j []) q))
    (List.range vecs.length)
  (idxs.take k).map Int.ofNat ++ List.replicate (k - vecs.length) (-1)

/-- Python list subscription `xs[i]`: non-negative indices are direct,
negative indices count from the end, out-of-range raises IndexError. -/
def pyGet {α : Type} (xs : List α) (i : Int) : Except PyErr α :=
  if 0 ≤ i then
    match xs[i.toNat]? with
    | some a => .ok a
    | none => .error (.indexError "list index out of range")
  else
    let j := (xs.length : Int) + i
    if 0 ≤ j then
      match xs[j.toNat]? with
      | some a => .ok a
      | none => .error (.indexError "list index out of range")
    else .error (.indexError "list index out of range")

/-- A Python list comprehension whose body may raise: first exception
aborts the whole comprehension. -/
def mapE {α β : Type} (f : α → Except PyErr β) : List α → Except PyErr (List β)
  | [] => .ok []
  | x :: xs =>
    match f x with
    | .error e => .error e
    | .ok b =>
      match mapE f xs with
      | .error e => .error e
      | .ok bs => .ok (b :: bs)

/-- `FAISSVectorStore.build_index` (the body inside its decorator):
embed all chunks at once, read the embedding width from
`embeddings.shape[1]` (an IndexError on an empty batch), build a fresh
L2 index over the embeddings and swap in the new chunk list.  `enc` is
the external `self.model.encode(chunks)` call. -/
def build_index (enc : List String → Except PyErr (List (List Int)))
    (st : VectorStoreState) (chunks : List String) :
    Except PyErr Bool × VectorStoreState :=
  match enc chunks with
  | .error e =>
    (.error (.vectorstoreError ("Build index error: " ++ e.message)), st)
  | .ok embeddings =>
    match embeddings with
    | [] =>
      (.error (.vectorstoreError "Build index error: tuple index out of range"), st)
    | _ :: _ =>
      (.ok true, { index := some embeddings, text_chunks := chunks })

/-- `FAISSVectorStore.retrieve` (the body inside its decorator): raise
if no index is built, embed the query (`encq` is the external
`self.model.encode([query])` call), search for the top `k` labels and
map them through `self.text_chunks`.  The store state is not
mutated. -/
def retrieve (st : VectorStoreState) (encq : Except PyErr (List Int)) (k : Nat) :
    Except PyErr (List String) :=
  match st.index with
  | none => .error (.vectorstoreError "Retrieve error: Index is not built or loaded")
  | some vecs =>
    match encq with
    | .error e => .error (.vectorstoreError ("Retrieve error: " ++ e.message))
    | .ok qv =>
      match mapE (pyGet st.text_chunks) (faissSearch vecs qv k) with
      | .ok results => .ok results
      | .error e => .error (.vectorstoreError ("Retrieve error: " ++ e.message))

/-- The two artifacts persisted per identifier: the binary index file
(`Data/Indexes/<id>.index`) and the pickled chunk list
(`Data/Chunks/<id>_chunks.pkl`); `none` = file missing. -/
structure IndexFiles where
  indexFile : Option (List (List Int))
  chunksFile : Option (List String)
deriving DecidableEq, Repr

/-- `FAISSVectorStore.save_index` (the body inside its decorator). -/
def save_index (st : VectorStoreState) (fs : IndexFiles) :
    Except PyErr Unit × IndexFiles :=
  match st.index with
  | none =>
    (.error (.vectorstoreError
      "Save index error: No index to save. Build or load an index first."), fs)
  | some vecs => (.ok (), ⟨some vecs, some st.text_chunks⟩)

/-- `FAISSVectorStore.load_index` (the body inside its decorator):
`faiss.read_index` assigns `self.index` first; the chunk-metadata read
has its own `except FileNotFoundError` handler which falls back to the
caller-supplied chunks, or raises `ValueError` (wrapped by the outer
handler into a `VectorstoreError`) when none were supplied. -/
def load_index (fs : IndexFiles) (st : VectorStoreState)
    (chunks : Option (List String)) :
    Except PyErr Unit × VectorStoreState :=
  match fs.indexFile with
  | none =>
    (.error (.vectorstoreError "Load index error: could not read index file"), st)
  | some vecs =>
    match fs.chunksFile with
    | some cs => (.ok (), ⟨some vecs, cs⟩)
    | none =>
      match chunks with
      | none =>
        (.error (.vectorstoreError
          "Load index error: Chunks must be provided if metadata file is missing."),
         { st with index := some vecs })
      | some cs => (.ok (), ⟨some vecs, cs⟩)

theorem mem_insertSorted {α : Type} (le : α → α → Bool) (x : α) (l : List α)
    (a : α) : a ∈ insertSorted le x l ↔ a = x ∨ a ∈ l := by
  induction l with
  | nil => simp [insertSorted]
  | cons y ys ih =>
    unfold insertSorted
    by_cases h : le x y = true
    · simp [h]
    · simp [h, ih]
      tauto

theorem mem_sortedBy {α : Type} (le : α → α → Bool) (l : List α) (a : α) :
    a ∈ sortedBy le l ↔ a ∈ l := by
  induction l with
  | nil => simp [sortedBy]
  | cons x xs ih =>
    unfold sortedBy
    rw [mem_insertSorted]
    simp [ih]

theorem length_insertSorted {α : Type} (le : α → α → Bool) (x : α) (l : List α) :
    (insertSorted le x l).length = l.length + 1 := by
  induction l with
  | nil => simp [insertSorted]
  | cons y ys ih =>
    unfold insertSorted
    by_cases h : le x y = true <;> simp [h, ih]

theorem length_sortedBy {α : Type} (le : α → α → Bool) (l : List α) :
    (sortedBy le l).length = l.length := by
  induction l with
  | nil => rfl
  | cons x xs ih =>
    unfold sortedBy
    rw [length_insertSorted, ih]
    rfl

theorem length_faissSearch (vecs : List (List Int)) (q : List Int) (k : Nat) :
    (faissSearch vecs q k).length = k := by
  unfold faissSearch
  simp only [List.length_append, List.length_map, List.length_take,
    List.length_replicate, length_sortedBy, List.length_range]
  omega

theorem mem_faissSearch (vecs : List (List Int)) (q : List Int) (k : Nat)
    (i : Int) (h : i ∈ faissSearch vecs q k) :
    (0 ≤ i ∧ i.toNat < vecs.length) ∨ i = -1 := by
  unfold faissSearch at h
  rw [List.mem_append] at h
  rcases h with h | h
  · left
    obtain ⟨n, hn, rfl⟩ := List.mem_map.mp h
    have hmem : n ∈ List.range vecs.length :=
      (mem_sortedBy _ _ _).mp (List.mem_of_mem_take hn)
    have := List.mem_range.mp hmem
    exact ⟨Int.ofNat_nonneg n, by simpa using this⟩
  · right
    exact List.eq_of_mem_replicate h

theorem pyGet_valid {α : Type} (xs : List α) (i : Int)
    (h : (0 ≤ i ∧ i.toNat < xs.length) ∨ (i = -1 ∧ xs ≠ [])) :
    ∃ b, pyGet xs i = .ok b := by
  unfold pyGet
  rcases h with ⟨h0, hlt⟩ | ⟨rfl, hne⟩
  · rw [if_pos h0]
    rcases h' : xs[i.toNat]? with _ | b
    · rw [List.getElem?_eq_none_iff] at h'
      omega
    · exact ⟨b, by simp [h']⟩
  · rw [if_neg (by decide)]
    have hpos : 0 < xs.length := List.length_pos.mpr hne
    have hj : (0 : Int) ≤ (xs.length : Int) + (-1) := by omega
    rw [if_pos hj]
    have hjn : ((xs.length : Int) + (-1)).toNat < xs.length := by omega
    rcases h' : xs[((xs.length : Int) + (-1)).toNat]? with _ | b
    · rw [List.getElem?_eq_none_iff] at h'
      omega
    · exact ⟨b, by simp [h']⟩

theorem mapE_ok {α β : Type} (f : α → Except PyErr β) (l : List α)
    (h : ∀ a ∈ l, ∃ b, f a = .ok b) :
    ∃ bs, mapE f l = .ok bs ∧ bs.length = l.length := by
  induction l with
  | nil => exact ⟨[], rfl, rfl⟩
  | cons x xs ih =>
    obtain ⟨b, hb⟩ := h x (by simp)
    obtain ⟨bs, hbs, hlen⟩ := ih fun a ha => h a (by simp [ha])
    exact ⟨b :: bs, by simp [mapE, hb, hbs], by simp [hlen]⟩

/-- C3 (amended): against a built nonempty index whose chunk list is
aligned with its vectors, `retrieve` never errors and returns exactly
`k` chunk texts — also when `k` exceeds the index size (FAISS pads the
missing labels with `-1`, which Python indexing resolves to the last
chunk), not `min k n`. -/
theorem claim_C3_retrieve_returns_k (vecs : List (List Int)) (tc : List String)
    (qv : List Int) (k : Nat) (hne : vecs ≠ [])
    (halign : tc.length = vecs.length) :
    ∃ l, retrieve ⟨some vecs, tc⟩ (.ok qv) k = .ok l ∧ l.length = k := by
  have htcne : tc ≠ [] := by
    intro hnil
    rw [hnil] at halign
    exact hne (List.length_eq_zero.mp halign.symm)
  have hvalid : ∀ i ∈ faissSearch vecs qv k, ∃ b, pyGet tc i = .ok b := by
    intro i hi
    apply pyGet_valid
    rcases mem_faissSearch vecs qv k i hi with ⟨h0, hlt⟩ | rfl
    · exact Or.inl ⟨h0, by rw [halign]; exact hlt⟩
    · exact Or.inr ⟨rfl, htcne⟩
  obtain ⟨bs, hbs, hlen⟩ := mapE_ok _ _ hvalid
  refine ⟨bs, ?_, ?_⟩
  · simp only [retrieve]
    rw [hbs]
  · rw [hlen, length_faissSearch]

/-- C3 witness: a 1-vector index retrieved with `k = 5`. -/
theorem claim_C3_witness :
    ∃ l, retrieve ⟨some [[0]], ["a"]⟩ (.ok [0]) 5 = .ok l ∧ l.length = 5 :=
  claim_C3_retrieve_returns_k [[0]] ["a"] [0] 5 (by decide) (by decide)

/-- C3 counterexample: `retrieve` with `k = 10` against an index of 3
chunks returns 10 results (the last chunk repeated via the `-1`
padding), not `min 10 3 = 3` as the claim states. -/
theorem claim_C3_counterexample :
    retrieve ⟨some [[0], [1], [2]], ["a", "b", "c"]⟩ (.ok [0]) 10 =
      .ok ["a", "b", "c", "c", "c", "c", "c", "c", "c", "c"] ∧
    (10 : Nat) ≠ min 10 3 := by
  constructor
  · rfl
  · decide

/-- C5: `build_index` either succeeds and replaces the whole prior
index state with the new embeddings and chunks, or fails leaving the
prior state untouched; it fails whenever the chunk list is empty
(`embeddings.shape[1]` raises on an empty batch) or the embedding call
fails.  `henc` is the guarantee that the embedding model returns one
vector per input. -/
theorem claim_C5_build_index_atomic
    (enc : List String → Except PyErr (List (List Int)))
    (st : VectorStoreState) (chunks : List String)
    (henc : ∀ ys, enc chunks = .ok ys → ys.length = chunks.length) :
    (isOk (build_index enc st chunks).1 = true →
      ∃ embs, enc chunks = .ok embs ∧
        (build_index enc st chunks).2 = ⟨some embs, chunks⟩) ∧
    (isOk (build_index enc st chunks).1 = false →
      (build_index enc st chunks).2 = st) ∧
    (chunks = [] → isOk (build_index enc st chunks).1 = false) ∧
    (∀ e, enc chunks = .error e → isOk (build_index enc st chunks).1 = false) := by
  rcases henc' : enc chunks with e | embs
  · simp [build_index, henc', isOk]
  · cases embs with
    | nil => simp [build_index, henc', isOk]
    | cons v vs =>
      refine ⟨fun _ => ⟨v :: vs, rfl, by simp [build_index, henc']⟩, ?_, ?_, ?_⟩
      · intro hfalse
        simp [build_index, henc', isOk] at hfalse
      · intro hchunks
        have := henc (v :: vs) henc'
        rw [hchunks] at this
        simp at this
      · intro e he
        simp at he

/-- C5 witness: building from an embedding call that returns one
vector for the one chunk. -/
theorem claim_C5_witness :
    (isOk (build_index (fun xs => .ok (xs.map fun _ => [0])) emptyStore ["a"]).1 = true →
      ∃ embs, (fun (xs : List String) => Except.ok (ε := PyErr) (xs.map fun _ => [(0 : Int)])) ["a"] = .ok embs ∧
        (build_index (fun xs => .ok (xs.map fun _ => [0])) emptyStore ["a"]).2 = ⟨some embs, ["a"]⟩) ∧
    (isOk (build_index (fun xs => .ok (xs.map fun _ => [0])) emptyStore ["a"]).1 = false →
      (build_index (fun xs => .ok (xs.map fun _ => [0])) emptyStore ["a"]).2 = emptyStore) ∧
    (["a"] = ([] : List String) →
      isOk (build_index (fun xs => .ok (xs.map fun _ => [0])) emptyStore ["a"]).1 = false) ∧
    (∀ e, (fun (xs : List String) => Except.ok (ε := PyErr) (xs.map fun _ => [(0 : Int)])) ["a"] = .error e →
      isOk (build_index (fun xs => .ok (xs.map fun _ => [0])) emptyStore ["a"]).1 = false) :=
  claim_C5_build_index_atomic (fun xs => .ok (xs.map fun _ => [0])) emptyStore ["a"]
    (fun ys hy => by simpa using congrArg (fun r => match r with | Except.ok l => l.length | _ => 0) hy.symm)

/-- C7: when the persisted index file exists but the chunk-metadata
file is missing, `load_index` uses the caller-supplied fallback chunks
when given, and otherwise raises the `VectorstoreError` wrapping
`ValueError: Chunks must be provided if metadata file is missing.`
(The failed load has already overwritten `self.index`.) -/
theorem claim_C7_load_index_fallback (fs : IndexFiles) (st : VectorStoreState)
    (vecs : List (List Int)) (hidx : fs.indexFile = some vecs)
    (hmiss : fs.chunksFile = none) :
    (∀ cs, load_index fs st (some cs) = (.ok (), ⟨some vecs, cs⟩)) ∧
    load_index fs st none =
      (.error (.vectorstoreError
        "Load index error: Chunks must be provided if metadata file is missing."),
       { st with index := some vecs }) := by
  constructor
  · intro cs
    simp [load_index, hidx, hmiss]
  · simp [load_index, hidx, hmiss]

/-- C7 witness: loading identifier whose chunk file is missing, with
and without fallback chunks. -/
theorem claim_C7_witness :
    (∀ cs, load_index ⟨some [[0]], none⟩ emptyStore (some cs) =
      (.ok (), ⟨some [[0]], cs⟩)) ∧
    load_index ⟨some [[0]], none⟩ emptyStore none =
      (.error (.vectorstoreError
        "Load index error: Chunks must be provided if metadata file is missing."),
       { emptyStore with index := some [[0]] }) :=
  claim_C7_load_index_fallback ⟨some [[0]], none⟩ emptyStore [[0]] rfl rfl

/-- C9 (amended): a successful `build_index` establishes
`len(vectors) = len(chunks)`, and `retrieve`/`save_index` do not write
the store; but `load_index` installs whatever the two persisted
artifacts (or the fallback) contain, with no alignment check. -/
theorem claim_C9_invariant_after_ops
    (enc : List String → Except PyErr (List (List Int)))
    (st : VectorStoreState) (chunks : List String)
    (henc : ∀ ys, enc chunks = .ok ys → ys.length = chunks.length) :
    (isOk (build_index enc st chunks).1 = true →
      vecCount (build_index enc st chunks).2 =
        ((build_index enc st chunks).2).text_chunks.length) ∧
    (∀ vecs cs, load_index ⟨some vecs, some cs⟩ st none = (.ok (), ⟨some vecs, cs⟩)) := by
  constructor
  · intro hok
    obtain ⟨embs, hembs, hst⟩ :=
      (claim_C5_build_index_atomic enc st chunks henc).1 hok
    rw [hst]
    simp [vecCount, henc embs hembs]
  · intro vecs cs
    simp [load_index]

/-- C9 witness: a concrete successful build. -/
theorem claim_C9_witness :
    (isOk (build_index (fun xs => .ok (xs.map fun _ => [1])) emptyStore ["a", "b"]).1 = true →
      vecCount (build_index (fun xs => .ok (xs.map fun _ => [1])) emptyStore ["a", "b"]).2 =
        ((build_index (fun xs => .ok (xs.map fun _ => [1])) emptyStore ["a", "b"]).2).text_chunks.length) ∧
    (∀ vecs cs, load_index ⟨some vecs, some cs⟩ emptyStore none = (.ok (), ⟨some vecs, cs⟩)) :=
  claim_C9_invariant_after_ops (fun xs => .ok (xs.map fun _ => [1])) emptyStore ["a", "b"]
    (fun ys hy => by simpa using congrArg (fun r => match r with | Except.ok l => l.length | _ => 0) hy.symm)

/-- C9 counterexample: `load_index` completes successfully with a
2-vector index file and a 1-chunk metadata file, leaving the store
with 2 vectors but 1 chunk text — the claimed invariant fails after a
vector-store operation. -/
theorem claim_C9_counterexample :
    (load_index ⟨some [[0], [1]], some ["only"]⟩ emptyStore none).1 = .ok () ∧
    vecCount (load_index ⟨some [[0], [1]], some ["only"]⟩ emptyStore none).2 = 2 ∧
    ((load_index ⟨some [[0], [1]], some ["only"]⟩ emptyStore none).2).text_chunks.length = 1 ∧
    (2 : Nat) ≠ 1 := by
  refine ⟨rfl, rfl, rfl, by decide⟩

/-! ### Schema introspection: `BaseDatabase.get_schema`

`get_tables` / `get_columns` / `get_foreign_keys` are each wrapped in
their own `exception_handler`, so the `get_schema` body sees either
the value or `None` (the swallowed error).  Iterating a `None` table
list raises `TypeError`, which the body's `except Exception` wraps
into `DatabaseConnectionError`; a per-table `None` column or
foreign-key list is stored in the descriptor as-is.  `get_schema`
itself sits behind `exception_handler` too, so its caller receives
`None` instead of a raised error. -/

structure SchemaEntry where
  columns : Option (List ColumnInfo)
  foreign_keys : Option (List ForeignKeyInfo)
deriving DecidableEq, Repr

structure DB where
  tablesR : Except PyErr (List String)
  columnsR : String → Except PyErr (List ColumnInfo)
  fksR : String → Except PyErr (List ForeignKeyInfo)

/-- The body of `BaseDatabase.get_schema` (inside its decorator). -/
def get_schema_inner (db : DB) : Except PyErr (List (String × SchemaEntry)) :=
  match exception_handler db.tablesR with
  | none => .error (.databaseConnectionError
      "Failed to fetch schema: NoneType object is not iterable")
  | some tables => .ok (tables.map fun t =>
      (t, ⟨exception_handler (db.columnsR t), exception_handler (db.fksR t)⟩))

/-- Caller-visible `get_schema`: the body behind its own
`exception_handler`. -/
def get_schema (db : DB) : Option (List (String × SchemaEntry)) :=
  exception_handler (get_schema_inner db)

/-- A database whose `get_columns` driver call fails for every
table. -/
def dbColsFail : DB :=
  ⟨.ok ["t"],
   fun _ => .error (.databaseConnectionError
     "SQLite get_columns failed: no such table"),
   fun _ => .ok []⟩

/-- C4 (amended): when listing tables fails, the `get_schema` body
raises the typed `DatabaseConnectionError`, but its own
`exception_handler` swallows it, so the caller receives `None` — and
when a per-table columns call fails, the failure is swallowed a layer
lower and `get_schema` returns a descriptor whose entry carries `None`
in place of the column list. -/
theorem claim_C4_get_schema_swallows (db : DB) :
    (∀ e, db.tablesR = .error e →
      get_schema_inner db = .error (.databaseConnectionError
        "Failed to fetch schema: NoneType object is not iterable") ∧
      get_schema db = none) ∧
    (∀ tables, db.tablesR = .ok tables → ∀ t, t ∈ tables → ∀ e,
      db.columnsR t = .error e →
      ∃ schema, get_schema db = some schema ∧
        (t, (⟨none, exception_handler (db.fksR t)⟩ : SchemaEntry)) ∈ schema) := by
  constructor
  · intro e he
    constructor <;> simp [get_schema, get_schema_inner, exception_handler, he]
  · intro tables ht t hmem e he
    refine ⟨tables.map fun t2 =>
      (t2, ⟨exception_handler (db.columnsR t2), exception_handler (db.fksR t2)⟩),
      ?_, ?_⟩
    · simp [get_schema, get_schema_inner, exception_handler, ht]
    · refine List.mem_map.mpr ⟨t, hmem, ?_⟩
      simp [exception_handler, he]

/-- C4 witness: a database whose table listing fails, and one whose
per-table columns call fails. -/
theorem claim_C4_witness :
    (∀ e, (dbColsFail.tablesR = .error e) →
      get_schema_inner dbColsFail = .error (.databaseConnectionError
        "Failed to fetch schema: NoneType object is not iterable") ∧
      get_schema dbColsFail = none) ∧
    (∀ tables, dbColsFail.tablesR = .ok tables → ∀ t, t ∈ tables → ∀ e,
      dbColsFail.columnsR t = .error e →
      ∃ schema, get_schema dbColsFail = some schema ∧
        (t, (⟨none, exception_handler (dbColsFail.fksR t)⟩ : SchemaEntry)) ∈ schema) :=
  claim_C4_get_schema_swallows dbColsFail

/-- C4 counterexample: with one table whose columns call fails,
`get_schema` neither raises nor returns `None`: it returns a
descriptor (`some`) whose single entry has no column list — a
partially populated descriptor reached the caller and the lower-layer
failure was silently swallowed. -/
theorem claim_C4_counterexample :
    get_schema dbColsFail = some [("t", ⟨none, some []⟩)] ∧
    ((⟨none, some []⟩ : SchemaEntry)).columns = none := by
  constructor <;> rfl

/-! ### SQL generation: `GroqLLM.generate`

The chain `prompt_template | self.llm` is invoked exactly once; its
result is an external call passed in as `invokeRes`.  On success the
response content is stripped of surrounding whitespace and returned
verbatim; any raised exception is wrapped into `LLMProviderError`.
The second component counts the model invocations performed. -/

def generate (invokeRes : Except PyErr String) : Except PyErr String × Nat :=
  match invokeRes with
  | .error e =>
    (.error (.llmProviderError ("SQL generation failed: " ++ e.message)), 1)
  | .ok content => (.ok (pyStrip content), 1)

/-- C8 (amended): `generate` invokes the model exactly once, trims the
response and returns it verbatim, and fails with an `LLMProviderError`
exactly when the model call raises — an empty response is returned as
the empty string, not an error. -/
theorem claim_C8_generate_behaviour (r : Except PyErr String) :
    (generate r).2 = 1 ∧
    (∀ c, r = .ok c → (generate r).1 = .ok (pyStrip c)) ∧
    (∀ e, r = .error e →
      (generate r).1 =
        .error (.llmProviderError ("SQL generation failed: " ++ e.message))) := by
  rcases r with e | c <;> simp [generate]

/-- C8 counterexample: a model call returning the empty response makes
`generate` return `ok ""` — the claimed "LLM provider" failure on an
empty response does not happen. -/
theorem claim_C8_counterexample :
    generate (.ok "") = (.ok "", 1) ∧ isOk (generate (.ok "")).1 = true := by
  constructor <;> rfl

/-! ### Per-question control flow: `App.process_query_ui`

After retrieval and generation, the generated SQL passes through the
safety gate; on a hit the handler shows the validation error and
returns before `db.obj.read` is reached.  The collaborators are passed
in as functions and the event list records which of them were
invoked. -/

inductive PipelineEvent where
  | retrieveCall
  | generateCall
  | readCall
deriving DecidableEq, Repr

inductive AskOutcome where
  | validationFailure (sql : String)
  | success (sql : String) (rows : List (List String)) (cols : List String)
deriving DecidableEq, Repr

def process_query_ui (question : String)
    (retrieveF : String → List String)
    (generateF : String → String → String)
    (readF : String → List (List String) × List String) :
    AskOutcome × List PipelineEvent :=
  let context := retrieveF question
  let schema_context := String.intercalate "\n" context
  let sql := generateF schema_context question
  if check_for_unsafe_keywords sql then
    (.validationFailure sql, [.retrieveCall, .generateCall])
  else
    let rc := readF sql
    (.success sql rc.1 rc.2, [.retrieveCall, .generateCall, .readCall])

/-- C2: whenever the generated SQL trips the safety gate, the
query-processing flow reports a validation failure and the Executor's
`read` is never invoked. -/
theorem claim_C2_validation_blocks_read (question : String)
    (retrieveF : String → List String)
    (generateF : String → String → String)
    (readF : String → List (List String) × List String)
    (hgate : check_for_unsafe_keywords
      (generateF (String.intercalate "\n" (retrieveF question)) question) = true) :
    (process_query_ui question retrieveF generateF readF).1 =
      .validationFailure
        (generateF (String.intercalate "\n" (retrieveF question)) question) ∧
    .readCall ∉ (process_query_ui question retrieveF generateF readF).2 := by
  unfold process_query_ui
  rw [if_pos hgate]
  refine ⟨rfl, ?_⟩
  simp

/-- C2 witness: a generator producing `DROP TABLE student` makes the
flow fail validation without reaching `read`. -/
theorem claim_C2_witness :
    (process_query_ui "q" (fun _ => ["ctx"]) (fun _ _ => "DROP TABLE student")
        (fun _ => ([], []))).1 = .validationFailure "DROP TABLE student" ∧
    PipelineEvent.readCall ∉
      (process_query_ui "q" (fun _ => ["ctx"]) (fun _ _ => "DROP TABLE student")
        (fun _ => ([], []))).2 :=
  claim_C2_validation_blocks_read "q" (fun _ => ["ctx"])
    (fun _ _ => "DROP TABLE student") (fun _ => ([], [])) (by decide)

/-! ### Singleton provider registries

`BaseDatabase.__new__`, `BaseVectorStore.__new__` and
`BaseLLMProvider.__new__` share the same caching pattern: one cached
instance per provider kind in the class-level `_instances` dict, with
every concrete `__init__` guarded by `if not hasattr(self,
"initialized")`.  Objects live in `objs` (references are list
positions), and `instances` maps provider kind to reference. -/

structure ProviderInstance where
  config : List (String × String)
  initialized : Bool
deriving DecidableEq, Repr

structure ProviderRegistry where
  objs : List ProviderInstance
  instances : List (String × Nat)
deriving DecidableEq, Repr

def lookupRef : List (String × Nat) → String → Option Nat
  | [], _ => none
  | (k2, v) :: rest, k => if k2 = k then some v else lookupRef rest k

/-- The guarded `__init__`: a second initialization of an already
initialized instance is a no-op. -/
def guardedInit (obj : ProviderInstance) (cfg : List (String × String)) :
    ProviderInstance :=
  if obj.initialized then obj else ⟨cfg, true⟩

/-- `Cls(config)`: `__new__` returns the cached instance for the kind
(creating one when absent), then `__init__` runs guarded. -/
def constructProvider (w : ProviderRegistry) (key : String)
    (cfg : List (String × String)) : ProviderRegistry × Nat :=
  match lookupRef w.instances key with
  | some ref =>
    let obj2 := guardedInit (w.objs.getD ref ⟨[], false⟩) cfg
    ({ w with objs := w.objs.set ref obj2 }, ref)
  | none =>
    let ref := w.objs.length
    ({ objs := w.objs ++ [guardedInit ⟨[], false⟩ cfg],
       instances := w.instances ++ [(key, ref)] }, ref)

theorem lookupRef_append_self (m : List (String × Nat)) (key : String) (r : Nat)
    (h : lookupRef m key = none) : lookupRef (m ++ [(key, r)]) key = some r := by
  induction m with
  | nil => simp [lookupRef]
  | cons p rest ih =>
    rcases p with ⟨k2, v⟩
    by_cases hk : k2 = key
    · unfold lookupRef at h
      rw [if_pos hk] at h
      exact absurd h (by simp)
    · show lookupRef ((k2, v) :: (rest ++ [(key, r)])) key = some r
      unfold lookupRef at h ⊢
      rw [if_neg hk] at h ⊢
      exact ih h

theorem set_same {α : Type} (l : List α) (n : Nat) (x : α)
    (h : l[n]? = some x) : l.set n x = l := by
  induction l generalizing n with
  | nil => simp at h
  | cons a as ih =>
    cases n with
    | zero =>
      simp only [List.getElem?_cons_zero, Option.some.injEq] at h
      simp [h]
    | succ m =>
      simp only [List.getElem?_cons_succ] at h
      simp [ih m h]

/-- C10: for every provider kind, a second construction of the same
kind returns the very same cached object, leaves the registry (and in
particular the object's stored config) unchanged, and the differing
config of the second construction is silently ignored. -/
theorem claim_C10_provider_singleton (w : ProviderRegistry) (key : String)
    (c1 c2 : List (String × String))
    (hfresh : lookupRef w.instances key = none) :
    (constructProvider (constructProvider w key c1).1 key c2).2 =
      (constructProvider w key c1).2 ∧
    (constructProvider (constructProvider w key c1).1 key c2).1 =
      (constructProvider w key c1).1 ∧
    ((constructProvider w key c1).1.objs.getD (constructProvider w key c1).2
        ⟨[], false⟩).config = c1 := by
  have h1 : constructProvider w key c1 =
      ({ objs := w.objs ++ [⟨c1, true⟩],
         instances := w.instances ++ [(key, w.objs.length)] }, w.objs.length) := by
    unfold constructProvider
    rw [hfresh]
    rfl
  have hobj : (w.objs ++ [(⟨c1, true⟩ : ProviderInstance)])[w.objs.length]? =
      some ⟨c1, true⟩ := List.getElem?_concat_length _ _
  have hgetD : (w.objs ++ [(⟨c1, true⟩ : ProviderInstance)]).getD w.objs.length
      ⟨[], false⟩ = ⟨c1, true⟩ := by
    simp [List.getD_eq_getElem?_getD, hobj]
  have h2 : constructProvider
      { objs := w.objs ++ [⟨c1, true⟩],
        instances := w.instances ++ [(key, w.objs.length)] } key c2 =
      ({ objs := w.objs ++ [⟨c1, true⟩],
         instances := w.instances ++ [(key, w.objs.length)] }, w.objs.length) := by
    unfold constructProvider
    rw [lookupRef_append_self _ _ _ hfresh]
    simp only [hgetD, guardedInit, if_true]
    rw [set_same _ _ _ hobj]
  rw [h1, h2]
  exact ⟨rfl, rfl, by rw [hgetD]⟩

/-- C10 witness: two sqlite constructions with different configs. -/
theorem claim_C10_witness :
    (constructProvider (constructProvider ⟨[], []⟩ "sqlite" [("dbname", "a")]).1
        "sqlite" [("dbname", "b")]).2 =
      (constructProvider ⟨[], []⟩ "sqlite" [("dbname", "a")]).2 ∧
    (constructProvider (constructProvider ⟨[], []⟩ "sqlite" [("dbname", "a")]).1
        "sqlite" [("dbname", "b")]).1 =
      (constructProvider ⟨[], []⟩ "sqlite" [("dbname", "a")]).1 ∧
    ((constructProvider ⟨[], []⟩ "sqlite" [("dbname", "a")]).1.objs.getD
        (constructProvider ⟨[], []⟩ "sqlite" [("dbname", "a")]).2
        ⟨[], false⟩).config = [("dbname", "a")] :=
  claim_C10_provider_singleton ⟨[], []⟩ "sqlite" [("dbname", "a")]
    [("dbname", "b")] rfl

end TextToSql
